import Mathlib

/-!
# UrbanMart Filtering & Aggregation Engine — verification development

Shallow embedding of the analytical core of the UrbanMart Streamlit
mini-project.  The repository contains three near-duplicate dashboards;
the richest implementation lives in
`Python_Graded_Assignment(Neel,Harsh,Tanishk)/Mini_Project/app.py`
(functions `load_data`, `apply_filters`, the groupby blocks) and
`.../Mini_Project/urbanmart_analysis.py` (CLI KPI helpers), with the
`urbanmart_final_project` variants (`add_line_revenue_column`,
`compute_total_revenue`, `filter_data`) as the second source.

Modelling conventions:
* a pandas DataFrame of sale line items is a `List Row` (rows in file
  order; boolean-mask filtering preserves order and multiplicity);
* currency values are exact rationals `ℚ` (the float tolerance ε=1e-6 in
  the spec only accommodates binary floats; the algebraic identities are
  exact);
* calendar dates are `Int` days since the Unix epoch (1970-01-01 was a
  Thursday); pandas `Timestamp` comparison is the numeric order;
* a pandas division that produces a non-finite float (NaN from 0/0, ±inf
  from x/0) is modelled as `none : Option ℚ`.
-/

/-- One line item of `urbanmart_sales.csv`.  Only the columns read by the
filter / KPI / aggregation code are modelled; the remaining identity
columns (`bill_id`, `store_id`, `customer_id`, `product_id`) are never
consulted by the operations under study. -/
structure Row where
  transaction_id : String
  date : Int
  store_location : String
  customer_segment : String
  product_category : String
  product_name : String
  payment_method : String
  channel : String
  quantity : Int
  unit_price : ℚ
  discount_applied : ℚ
deriving DecidableEq, Repr

/-! ## Metric Deriver (`load_data`, Mini_Project/app.py lines 82–102) -/

/-- `df['gross_revenue'] = df['quantity'] * df['unit_price']` -/
def gross_revenue (r : Row) : ℚ := (r.quantity : ℚ) * r.unit_price

/-- `df['line_revenue'] = (df['quantity'] * df['unit_price']) - df['discount_applied']` -/
def line_revenue (r : Row) : ℚ := (r.quantity : ℚ) * r.unit_price - r.discount_applied

/-- `df['cost'] = df['quantity'] * df['unit_price'] * 0.30` -/
def cost (r : Row) : ℚ := (r.quantity : ℚ) * r.unit_price * (30 / 100)

/-- `df['profit'] = df['line_revenue'] - df['cost']` -/
def profit (r : Row) : ℚ := line_revenue r - cost r

/-- `.round(2)`: round to two decimal places.  (numpy rounds exact
midpoints half-to-even; no claim here depends on midpoint behaviour, so
mathematical rounding is used.) -/
def round2 (x : ℚ) : ℚ := (round (x * 100) : ℤ) / 100

/-- `df['profit_margin'] = (df['profit'] / df['line_revenue'] * 100).round(2)`.

The source performs the division unconditionally.  When
`line_revenue = 0` pandas produces a non-finite float (NaN for the 0/0
case, ±inf otherwise), modelled here as `none`; there is no guard that
replaces it by 0. -/
def profit_margin (r : Row) : Option ℚ :=
  if line_revenue r = 0 then none
  else some (round2 (profit r / line_revenue r * 100))

/-- `df['date'].dt.day_name()` as a function of the epoch-day number
(1970-01-01 was a Thursday). -/
def dayName (date : Int) : String :=
  match (date % 7).toNat with
  | 0 => "Thursday"
  | 1 => "Friday"
  | 2 => "Saturday"
  | 3 => "Sunday"
  | 4 => "Monday"
  | 5 => "Tuesday"
  | _ => "Wednesday"

/-- `df['day_of_week'] = df['date'].dt.day_name()` -/
def day_of_week (r : Row) : String := dayName r.date

/-! ## Filter Evaluator (`apply_filters`, Mini_Project/app.py lines 119–172)

The five recognized `date_segment` branches of the source are textually
identical: each applies the same inclusive date-range mask.  The
categorical stages mirror Python truthiness: `if stores:` applies the
`isin` mask only when the list is non-empty, `if channel != "All":`
applies the equality mask only for a concrete channel. -/

def apply_filters (df : List Row) (date_segment : String)
    (custom_start custom_end : Int) (stores : List String) (channel : String)
    (categories segments payment_methods : List String) : List Row :=
  let dateMask : List Row → List Row := fun l =>
    l.filter (fun r => decide (custom_start ≤ r.date) && decide (r.date ≤ custom_end))
  let filtered₀ :=
    if date_segment == "Daily" then dateMask df
    else if date_segment == "Weekly" then dateMask df
    else if date_segment == "Monthly" then dateMask df
    else if date_segment == "Quarterly" then dateMask df
    else if date_segment == "Yearly" then dateMask df
    else df
  let filtered₁ :=
    if stores.isEmpty then filtered₀
    else filtered₀.filter (fun r => stores.contains r.store_location)
  let filtered₂ :=
    if channel == "All" then filtered₁
    else filtered₁.filter (fun r => r.channel == channel)
  let filtered₃ :=
    if categories.isEmpty then filtered₂
    else filtered₂.filter (fun r => categories.contains r.product_category)
  let filtered₄ :=
    if segments.isEmpty then filtered₃
    else filtered₃.filter (fun r => segments.contains r.customer_segment)
  if payment_methods.isEmpty then filtered₄
  else filtered₄.filter (fun r => payment_methods.contains r.payment_method)

/-- The five time granularities offered by the dashboard selector. -/
def granularities : List String :=
  ["Daily", "Weekly", "Monthly", "Quarterly", "Yearly"]

/-- Row predicate following the specification's wording of the filter
algorithm: the date lies in the inclusive range AND, for each categorical
dimension whose restriction set is non-empty (channel restricted =
anything other than the sentinel `"All"`), the row's value is a member of
the set.  This definition is written from the spec, to be compared with
`apply_filters`, which is written from the source. -/
def rowPasses (custom_start custom_end : Int) (stores : List String)
    (channel : String) (categories segments payment_methods : List String)
    (r : Row) : Bool :=
  (decide (custom_start ≤ r.date) && decide (r.date ≤ custom_end))
  && (stores.isEmpty || stores.contains r.store_location)
  && (channel == "All" || r.channel == channel)
  && (categories.isEmpty || categories.contains r.product_category)
  && (segments.isEmpty || segments.contains r.customer_segment)
  && (payment_methods.isEmpty || payment_methods.contains r.payment_method)

/-- The single predicate that the whole `apply_filters` pipeline is
equivalent to, including the fall-through behaviour for an unrecognized
`date_segment` (no date mask at all). -/
def fullPred (date_segment : String) (custom_start custom_end : Int)
    (stores : List String) (channel : String)
    (categories segments payment_methods : List String) (r : Row) : Bool :=
  (!(date_segment == "Daily" || date_segment == "Weekly"
      || date_segment == "Monthly" || date_segment == "Quarterly"
      || date_segment == "Yearly")
    || (decide (custom_start ≤ r.date) && decide (r.date ≤ custom_end)))
  && (stores.isEmpty || stores.contains r.store_location)
  && (channel == "All" || r.channel == channel)
  && (categories.isEmpty || categories.contains r.product_category)
  && (segments.isEmpty || segments.contains r.customer_segment)
  && (payment_methods.isEmpty || payment_methods.contains r.payment_method)

section FilterLemmas

/-- A conditionally-skipped filter stage is a filter by a weakened predicate. -/
lemma skip_filter_eq (b : Bool) (l : List Row) (p : Row → Bool) :
    (if b then l else l.filter p) = l.filter (fun r => b || p r) := by
  cases b <;> simp

/-- A conditionally-applied filter stage is a filter by a guarded predicate. -/
lemma guard_filter_eq (b : Bool) (l : List Row) (p : Row → Bool) :
    (if b then l.filter p else l) = l.filter (fun r => !b || p r) := by
  cases b <;> simp

/-- `apply_filters` is one `List.filter` by `fullPred`: the pipeline of
masks collapses to a single conjunctive predicate. -/
lemma apply_filters_eq_filter (df : List Row) (seg : String)
    (cs ce : Int) (stores : List String) (ch : String)
    (cats segs pms : List String) :
    apply_filters df seg cs ce stores ch cats segs pms
      = df.filter (fullPred seg cs ce stores ch cats segs pms) := by
  have hchain :
      (if seg == "Daily" then
        df.filter (fun r => decide (cs ≤ r.date) && decide (r.date ≤ ce))
      else if seg == "Weekly" then
        df.filter (fun r => decide (cs ≤ r.date) && decide (r.date ≤ ce))
      else if seg == "Monthly" then
        df.filter (fun r => decide (cs ≤ r.date) && decide (r.date ≤ ce))
      else if seg == "Quarterly" then
        df.filter (fun r => decide (cs ≤ r.date) && decide (r.date ≤ ce))
      else if seg == "Yearly" then
        df.filter (fun r => decide (cs ≤ r.date) && decide (r.date ≤ ce))
      else df)
      = df.filter (fun r =>
          !(seg == "Daily" || seg == "Weekly" || seg == "Monthly"
            || seg == "Quarterly" || seg == "Yearly")
          || (decide (cs ≤ r.date) && decide (r.date ≤ ce))) := by
    cases hd : (seg == "Daily") <;> cases hw : (seg == "Weekly")
      <;> cases hm : (seg == "Monthly") <;> cases hq : (seg == "Quarterly")
      <;> cases hy : (seg == "Yearly") <;> simp [hd, hw, hm, hq, hy]
  simp only [apply_filters]
  rw [skip_filter_eq, skip_filter_eq, skip_filter_eq, skip_filter_eq,
    skip_filter_eq, hchain]
  simp only [List.filter_filter]
  refine List.filter_congr ?_
  intro r _
  simp only [fullPred]
  generalize (!(seg == "Daily" || seg == "Weekly" || seg == "Monthly"
      || seg == "Quarterly" || seg == "Yearly")
    || (decide (cs ≤ r.date) && decide (r.date ≤ ce))) = a
  generalize (stores.isEmpty || stores.contains r.store_location) = b
  generalize (ch == "All" || r.channel == ch) = c
  generalize (cats.isEmpty || cats.contains r.product_category) = d
  generalize (segs.isEmpty || segs.contains r.customer_segment) = e
  generalize (pms.isEmpty || pms.contains r.payment_method) = f
  cases a <;> cases b <;> cases c <;> cases d <;> cases e <;> cases f <;> rfl

end FilterLemmas

/-! ## Aggregator

`df.groupby(key)[measure].sum()` produces one entry per distinct key,
keys sorted ascending (pandas `groupby` default `sort=True`), each entry
holding the sum of the measure over the rows of that group. -/

/-- The distinct keys of a groupby, sorted ascending as pandas does. -/
def groupKeys (key : Row → String) (df : List Row) : List String :=
  List.insertionSort (fun a b => a ≤ b) (df.map key).dedup

/-- `df.groupby(key)[value].sum()` : association list from group key to
the group's sum, keys in pandas (sorted) order. -/
def groupby_sum (key : Row → String) (value : Row → ℚ) (df : List Row) :
    List (String × ℚ) :=
  (groupKeys key df).map
    (fun k => (k, ((df.filter (fun r => key r == k)).map value).sum))

/-- `day_order` from Mini_Project/app.py line 652. -/
def day_order : List String :=
  ["Monday", "Tuesday", "Wednesday", "Thursday", "Friday", "Saturday", "Sunday"]

/-- `df_filtered.groupby('day_of_week').agg({'line_revenue':'sum',
'transaction_id':'nunique'}).reindex(day_order)` (Mini_Project/app.py
lines 652–657): `.reindex(day_order)` re-orders the grouped result to the
canonical Monday→Sunday index, inserting a NaN row (here `none`) for any
day absent from the data. -/
def day_sales (df : List Row) : List (String × (Option ℚ × Option Nat)) :=
  day_order.map (fun d =>
    let rows := df.filter (fun r => day_of_week r == d)
    (d, if rows.isEmpty then (none, none)
        else (some ((rows.map line_revenue).sum),
              some (rows.map Row.transaction_id).dedup.length)))

/-! ## KPI helpers with explicit DataFrame state

The CLI KPI helpers differ between the two projects in one important
way: the Mini_Project versions assign the `line_revenue` column **in
place** on the caller's DataFrame (`df['line_revenue'] = ...`), while the
final-project versions first take `df.copy()`
(`add_line_revenue_column`) and leave the argument untouched.  To make
that observable in a pure embedding, a DataFrame is a record of its base
rows plus the optional derived `line_revenue` column, and each operation
returns its result together with the post-state of its argument. -/

structure KpiDF where
  rows : List Row
  line_revenue_col : Option (List ℚ)
deriving DecidableEq, Repr

/-- `compute_total_revenue` from
Mini_Project/urbanmart_analysis.py lines 90–96:
`df['line_revenue'] = (df['quantity'] * df['unit_price']) -
df['discount_applied']` (an in-place column assignment on the shared
table), then `round(df['line_revenue'].sum(), 2)`. -/
def compute_total_revenue_mini (df : KpiDF) : ℚ × KpiDF :=
  let vals := df.rows.map line_revenue
  (round2 vals.sum, { df with line_revenue_col := some vals })

/-- `add_line_revenue_column` from
urbanmart_final_project/urbanmart_analysis.py lines 126–133: works on
`df.copy()` and returns the copy with the new column; the argument is
not touched, so no post-state is threaded. -/
def add_line_revenue_column (df : KpiDF) : KpiDF :=
  { df with line_revenue_col := some (df.rows.map line_revenue) }

/-- `compute_total_revenue` from
urbanmart_final_project/urbanmart_analysis.py lines 136–143: if the
column is absent it rebinds the *local* name to
`add_line_revenue_column(df)` (a copy); the caller's DataFrame is
returned unchanged as the post-state. -/
def compute_total_revenue_final (df : KpiDF) : ℚ × KpiDF :=
  let d := if df.line_revenue_col.isNone then add_line_revenue_column df else df
  ((d.line_revenue_col.getD []).sum, df)

/-! ## Helper lemmas for grouped-sum additivity -/

lemma sum_map_ite_not_mem (val : ℚ) (a : String) (K : List String)
    (ha : a ∉ K) :
    (K.map (fun k => if a = k then val else 0)).sum = 0 := by
  induction K with
  | nil => simp
  | cons k K ih =>
    simp only [List.mem_cons, not_or] at ha
    simp [List.map_cons, ha.1, ih ha.2]

lemma sum_map_ite_single (val : ℚ) (a : String) (K : List String)
    (hnd : K.Nodup) (ha : a ∈ K) :
    (K.map (fun k => if a = k then val else 0)).sum = val := by
  induction K with
  | nil => simp at ha
  | cons k K ih =>
    rcases List.mem_cons.mp ha with h | h
    · subst h
      have : a ∉ K := (List.nodup_cons.mp hnd).1
      simp [sum_map_ite_not_mem val a K this]
    · have hak : ¬(a = k) := by
        rintro rfl
        exact (List.nodup_cons.mp hnd).1 h
      simp [hak, ih (List.nodup_cons.mp hnd).2 h]

lemma sum_map_add_pointwise (K : List String) (f g : String → ℚ) :
    (K.map (fun k => f k + g k)).sum = (K.map f).sum + (K.map g).sum := by
  induction K with
  | nil => simp
  | cons k K ih => simp [List.map_cons, ih]; ring

/-- Partitioning a row list by any complete, duplicate-free key list and
summing per part recovers the total sum. -/
lemma partition_sum (key : Row → String) (val : Row → ℚ)
    (df : List Row) (K : List String) (hnd : K.Nodup)
    (hcov : ∀ r ∈ df, key r ∈ K) :
    (K.map (fun k => ((df.filter (fun r => key r == k)).map val).sum)).sum
      = (df.map val).sum := by
  induction df with
  | nil => simp
  | cons r df ih =>
    have hcov' : ∀ x ∈ df, key x ∈ K := fun x hx => hcov x (List.mem_cons_of_mem r hx)
    have hsplit : ∀ k : String,
        (((r :: df).filter (fun x => key x == k)).map val).sum
          = (if key r = k then val r else 0)
            + ((df.filter (fun x => key x == k)).map val).sum := by
      intro k
      by_cases h : key r = k
      · simp [List.filter_cons, h]
      · simp [List.filter_cons, beq_iff_eq, h]
    calc (K.map (fun k => (((r :: df).filter (fun x => key x == k)).map val).sum)).sum
        = (K.map (fun k => (if key r = k then val r else 0)
            + ((df.filter (fun x => key x == k)).map val).sum)).sum := by
          exact congrArg List.sum (List.map_congr_left (fun k _ => hsplit k))
      _ = (K.map (fun k => if key r = k then val r else 0)).sum
            + (K.map (fun k => ((df.filter (fun x => key x == k)).map val).sum)).sum :=
          sum_map_add_pointwise K _ _
      _ = val r + (df.map val).sum := by
          rw [sum_map_ite_single (val r) (key r) K hnd (hcov r (List.mem_cons_self r df)),
            ih hcov']
      _ = ((r :: df).map val).sum := by simp

/-! ## Concrete rows for witnesses and counterexamples -/

/-- A zero-revenue line item: quantity=1, unit_price=0, discount=0. -/
def zeroRow : Row :=
  { transaction_id := "T0001", date := 0, store_location := "Downtown",
    customer_segment := "Regular", product_category := "Grocery",
    product_name := "Free Sample", payment_method := "Cash",
    channel := "In-store", quantity := 1, unit_price := 0, discount_applied := 0 }

/-- A generic line item (epoch day 4 = Monday 1970-01-05). -/
def sampleRow : Row :=
  { transaction_id := "T0002", date := 4, store_location := "Downtown",
    customer_segment := "Regular", product_category := "Grocery",
    product_name := "Milk", payment_method := "Cash",
    channel := "Online", quantity := 2, unit_price := 10, discount_applied := 1 }

/-- A loaded table that does not yet carry the derived column. -/
def kpiSample : KpiDF := { rows := [sampleRow, zeroRow], line_revenue_col := none }

/-! ## Claim theorems -/

/-- C1: for every input table, inclusive date range and granularity among
Daily/Weekly/Monthly/Quarterly/Yearly, `apply_filters` returns exactly the
rows passing `rowPasses`: date in range AND membership in every non-empty
categorical restriction (conditions ANDed across dimensions, ORed within
one dimension's set); the granularity does not appear on the right-hand
side, so it never changes which rows pass. -/
theorem c1_filter_semantics (df : List Row) (seg : String) (cs ce : Int)
    (stores : List String) (ch : String) (cats segs pms : List String)
    (h : seg ∈ granularities) :
    apply_filters df seg cs ce stores ch cats segs pms
      = df.filter (rowPasses cs ce stores ch cats segs pms) := by
  rw [apply_filters_eq_filter]
  refine List.filter_congr ?_
  intro r _
  have hgate : (seg == "Daily" || seg == "Weekly" || seg == "Monthly"
      || seg == "Quarterly" || seg == "Yearly") = true := by
    simp only [granularities, List.mem_cons, List.not_mem_nil, or_false] at h
    rcases h with rfl | rfl | rfl | rfl | rfl <;> decide
  simp [fullPred, rowPasses, hgate]

/-- Witness for C1 at a concrete table, range and granularity. -/
theorem c1_filter_semantics_witness :
    apply_filters [sampleRow, zeroRow] "Monthly" 0 10 ["Downtown"] "All" [] [] []
      = List.filter (rowPasses 0 10 ["Downtown"] "All" [] [] []) [sampleRow, zeroRow] :=
  c1_filter_semantics [sampleRow, zeroRow] "Monthly" 0 10 ["Downtown"] "All" [] [] []
    (by decide)

/-- C2 counterexample: for the row quantity=1, unit_price=0, discount=0 the
derivation divides 0 by 0, which pandas leaves as a non-finite value
(`none` in this model), not the value 0 the claim requires. -/
theorem c2_profit_margin_counterexample :
    line_revenue zeroRow = 0 ∧ profit_margin zeroRow ≠ some 0 := by
  constructor
  · norm_num [line_revenue, zeroRow]
  · simp [profit_margin, line_revenue, zeroRow]

/-- C2 amended: whenever `line_revenue` is 0, the unguarded division in
`load_data` makes `profit_margin` non-finite (NaN/±inf, modelled `none`);
it is never the finite value 0. -/
theorem c2_profit_margin_amended (r : Row) (h : line_revenue r = 0) :
    profit_margin r = none := by
  simp [profit_margin, h]

/-- Witness for the amended C2 at the concrete zero-revenue row. -/
theorem c2_profit_margin_amended_witness :
    line_revenue zeroRow = 0 ∧ profit_margin zeroRow = none :=
  ⟨by norm_num [line_revenue, zeroRow],
   c2_profit_margin_amended zeroRow (by norm_num [line_revenue, zeroRow])⟩

/-- C3 counterexample: with date_from = 5 > date_to = 3 the filter still
returns a value — the empty list — rather than failing; `apply_filters`
has no exception path and no `InvalidRangeError` exists in the code. -/
theorem c3_invalid_range_counterexample :
    apply_filters [sampleRow] "Daily" 5 3 [] "All" [] [] [] = [] := by
  decide

/-- C3 amended: for any recognized granularity, when date_from > date_to
the filter returns the empty result (no row can satisfy the inclusive
range); no error is raised. -/
theorem c3_invalid_range_amended (df : List Row) (seg : String) (cs ce : Int)
    (stores : List String) (ch : String) (cats segs pms : List String)
    (hseg : seg ∈ granularities) (hlt : ce < cs) :
    apply_filters df seg cs ce stores ch cats segs pms = [] := by
  rw [apply_filters_eq_filter]
  refine List.filter_eq_nil_iff.mpr ?_
  intro r _
  have hgate : (seg == "Daily" || seg == "Weekly" || seg == "Monthly"
      || seg == "Quarterly" || seg == "Yearly") = true := by
    simp only [granularities, List.mem_cons, List.not_mem_nil, or_false] at hseg
    rcases hseg with rfl | rfl | rfl | rfl | rfl <;> decide
  simp only [fullPred, hgate, Bool.not_true, Bool.false_or, Bool.and_eq_true,
    decide_eq_true_eq]
  rintro ⟨⟨h1, h2⟩, -⟩
  omega

/-- Witness for the amended C3 at a concrete inverted range. -/
theorem c3_invalid_range_amended_witness :
    apply_filters [sampleRow] "Yearly" 5 3 [] "All" [] [] [] = [] :=
  c3_invalid_range_amended [sampleRow] "Yearly" 5 3 [] "All" [] [] []
    (by decide) (by decide)

/-- C4: with all categorical restriction sets empty, channel "All", and
date bounds covering every row, the filter is the identity — an empty
restriction set passes everything, it never matches nothing. -/
theorem c4_empty_criteria_noop (df : List Row) (seg : String) (cs ce : Int)
    (hcov : ∀ r ∈ df, cs ≤ r.date ∧ r.date ≤ ce) :
    apply_filters df seg cs ce [] "All" [] [] [] = df := by
  rw [apply_filters_eq_filter]
  refine List.filter_eq_self.mpr ?_
  intro r hr
  have h := hcov r hr
  simp [fullPred, h.1, h.2]

/-- Witness for C4 at a concrete table whose dates all lie in the range. -/
theorem c4_empty_criteria_noop_witness :
    apply_filters [sampleRow, zeroRow] "Daily" 0 10 [] "All" [] [] []
      = [sampleRow, zeroRow] :=
  c4_empty_criteria_noop [sampleRow, zeroRow] "Daily" 0 10 (by decide)

/-- The per-view revenue identity holds row by row, hence for the sums. -/
lemma sum_line_revenue_eq (view : List Row) :
    (view.map line_revenue).sum
      = (view.map gross_revenue).sum - (view.map Row.discount_applied).sum := by
  induction view with
  | nil => simp
  | cons r l ih =>
    simp only [List.map_cons, List.sum_cons, ih, line_revenue, gross_revenue]
    ring

/-- C5: on every non-empty filtered view the sum of `line_revenue` equals
the sum of `gross_revenue` minus the sum of `discount_applied` — exactly,
in this exact-rational model, hence a fortiori within ε = 1e-6 — with the
derived fields related as the claim states them. -/
theorem c5_revenue_identity (view : List Row) (_hne : view ≠ []) :
    (view.map line_revenue).sum
        = (view.map gross_revenue).sum - (view.map Row.discount_applied).sum
      ∧ ∀ r ∈ view, gross_revenue r = (r.quantity : ℚ) * r.unit_price
          ∧ line_revenue r = gross_revenue r - r.discount_applied
          ∧ cost r = (30 / 100) * gross_revenue r
          ∧ profit r = line_revenue r - cost r := by
  refine ⟨sum_line_revenue_eq view, ?_⟩
  intro r _
  exact ⟨rfl, rfl, by unfold cost gross_revenue; ring, rfl⟩

/-- Witness for C5 at a concrete one-row view. -/
theorem c5_revenue_identity_witness :
    ([sampleRow] : List Row) ≠ [] ∧
      (([sampleRow].map line_revenue).sum
        = ([sampleRow].map gross_revenue).sum
          - ([sampleRow].map Row.discount_applied).sum) :=
  ⟨by simp, (c5_revenue_identity [sampleRow] (by simp)).1⟩

/-- C6: for every filtered view and every grouping key (store, category,
channel, segment, payment method, day, customer, ... — any function of
the row), the groups' `line_revenue` sums add up to the unpartitioned
view's `line_revenue` sum. -/
theorem c6_group_additivity (key : Row → String) (view : List Row) :
    ((groupby_sum key line_revenue view).map Prod.snd).sum
      = (view.map line_revenue).sum := by
  unfold groupby_sum
  rw [List.map_map]
  have hcomp : (Prod.snd
        ∘ fun k => (k, ((view.filter (fun r => key r == k)).map line_revenue).sum))
      = fun k => ((view.filter (fun r => key r == k)).map line_revenue).sum := rfl
  rw [hcomp]
  apply partition_sum
  · exact ((List.perm_insertionSort _ _).nodup_iff).mpr (List.nodup_dedup _)
  · intro r hr
    exact ((List.perm_insertionSort _ _).mem_iff).mpr
      (List.mem_dedup.mpr (List.mem_map_of_mem key hr))

/-- C7: the day-of-week aggregation is indexed by
`.reindex(day_order)`, so its output labels are always exactly
Monday..Sunday in that order, for every input (hence for every
permutation of the input and regardless of alphabetical group order). -/
theorem c7_day_order (view : List Row) :
    (day_sales view).map Prod.fst = day_order := rfl

/-- C9 counterexample: `compute_total_revenue` of the Mini_Project CLI
module assigns the `line_revenue` column in place, so the shared table is
changed by the KPI call (here: the column appears where there was none). -/
theorem c9_mutation_counterexample :
    (compute_total_revenue_mini kpiSample).2 ≠ kpiSample := by
  intro h
  have hcol : (compute_total_revenue_mini kpiSample).2.line_revenue_col
      = kpiSample.line_revenue_col := by rw [h]
  simp [compute_total_revenue_mini, kpiSample] at hcol

/-- C9 amended: the final-project KPI works on a copy and leaves its
argument unchanged, and even the in-place Mini_Project KPI only writes
the derived `line_revenue` column — the base rows and columns of the
shared table are never modified by any of these operations (the filter,
operating on an immutable row list here, cannot mutate at all). -/
theorem c9_mutation_amended :
    (∀ df : KpiDF, (compute_total_revenue_final df).2 = df)
      ∧ (∀ df : KpiDF, ((compute_total_revenue_mini df).2).rows = df.rows)
      ∧ (∀ df : KpiDF, ((compute_total_revenue_mini df).2).line_revenue_col
          = some (df.rows.map line_revenue)) :=
  ⟨fun _ => rfl, fun _ => rfl, fun _ => rfl⟩

/-- C10: filtering is idempotent — applying `apply_filters` to its own
output with the same criteria returns that output unchanged, for every
table and every criteria (any granularity string included). -/
theorem c10_filter_idempotent (df : List Row) (seg : String) (cs ce : Int)
    (stores : List String) (ch : String) (cats segs pms : List String) :
    apply_filters (apply_filters df seg cs ce stores ch cats segs pms)
        seg cs ce stores ch cats segs pms
      = apply_filters df seg cs ce stores ch cats segs pms := by
  rw [apply_filters_eq_filter, apply_filters_eq_filter, List.filter_filter]
  exact List.filter_congr (fun r _ => Bool.and_self _)
